import Mathlib

set_option maxHeartbeats 1000000

/-!
Verification of the `lan-mic-receiver` core session/media pipeline.

The definitions below are a shallow embedding of the Rust sources:
  * `SampleQueue` embeds the `crossbeam_queue::ArrayQueue<i16>` sample
    bridge used in `src/receiver/src/core/mod.rs` (capacity 48_000).
  * The audio callbacks embed `write_data_f32` / `write_data_i16` /
    `write_data_u16` from `src/receiver/src/audio/mod.rs`.
  * The signaling message handler embeds `handle_signal_message` from
    `src/receiver/src/core/signaling/webrtc_session.rs`.
  * The runtime command loop embeds the `spawn_runtime` match arms of
    `src/receiver/src/core/mod.rs`.
Machine integers are modelled as `Int`/`Nat` with explicit saturation or
clamping where the source saturates or clamps.
-/

namespace LanMicReceiver

/-! ## Sample Bridge (`ArrayQueue<i16>` of capacity 48_000)

`data` lists the stored samples, oldest first.  `push` on a full queue
returns the sample back as an error (modelled as `false`) without
blocking; `pop` on an empty queue returns `none` without blocking. -/

structure SampleQueue where
  cap : Nat
  data : List Int
deriving Repr, DecidableEq

namespace SampleQueue

/-- `ArrayQueue::new(cap)`: an empty queue of fixed capacity. -/
def new (cap : Nat) : SampleQueue := ⟨cap, []⟩

/-- `ArrayQueue::push`: succeeds iff the queue is not full; on overflow the
sample is discarded and the queue is unchanged.  The `Bool` is `true` on
success (`Ok(())`) and `false` on overflow (`Err(sample)`). -/
def push (q : SampleQueue) (s : Int) : SampleQueue × Bool :=
  if q.data.length < q.cap then ({ q with data := q.data ++ [s] }, true)
  else (q, false)

/-- `ArrayQueue::pop`: removes and returns the oldest sample, or `none` on
an empty queue. -/
def pop (q : SampleQueue) : SampleQueue × Option Int :=
  match q with
  | ⟨cap, []⟩ => (⟨cap, []⟩, none)
  | ⟨cap, x :: xs⟩ => (⟨cap, xs⟩, some x)

/-- Push a whole list of samples in order, counting overflow results. -/
def pushAll (q : SampleQueue) : List Int → SampleQueue × Nat
  | [] => (q, 0)
  | s :: rest =>
    let p := q.push s
    let r := pushAll p.1 rest
    (r.1, (if p.2 then 0 else 1) + r.2)

theorem push_cap (q : SampleQueue) (s : Int) : (q.push s).1.cap = q.cap := by
  unfold push
  split <;> rfl

theorem pushAll_cap (q : SampleQueue) (l : List Int) :
    (q.pushAll l).1.cap = q.cap := by
  induction l generalizing q with
  | nil => rfl
  | cons s rest ih =>
    show ((q.push s).1.pushAll rest).1.cap = q.cap
    rw [ih, push_cap]

theorem pushAll_length (q : SampleQueue) (l : List Int)
    (h : q.data.length ≤ q.cap) :
    (q.pushAll l).1.data.length = min (q.data.length + l.length) q.cap := by
  induction l generalizing q with
  | nil => simp [pushAll]; omega
  | cons s rest ih =>
    show ((q.push s).1.pushAll rest).1.data.length = _
    by_cases hfull : q.data.length < q.cap
    · have hp : q.push s = ({ q with data := q.data ++ [s] }, true) := by
        simp [push, hfull]
      rw [hp]
      rw [ih _ (by simp; omega)]
      simp
      omega
    · have hp : q.push s = (q, false) := by
        simp [push, hfull]
      rw [hp]
      rw [ih _ h]
      simp
      omega

theorem pushAll_overflow (q : SampleQueue) (l : List Int)
    (h : q.data.length ≤ q.cap) :
    (q.pushAll l).2 = q.data.length + l.length - min (q.data.length + l.length) q.cap := by
  induction l generalizing q with
  | nil => simp [pushAll]; omega
  | cons s rest ih =>
    show (if (q.push s).2 then 0 else 1) + ((q.push s).1.pushAll rest).2 = _
    by_cases hfull : q.data.length < q.cap
    · have hp : q.push s = ({ q with data := q.data ++ [s] }, true) := by
        simp [push, hfull]
      rw [hp]
      simp
      rw [ih _ (by simp; omega)]
      simp
      omega
    · have hp : q.push s = (q, false) := by
        simp [push, hfull]
      rw [hp]
      simp
      rw [ih _ h]
      omega

end SampleQueue

/-- **C1.**  Every push on a full queue reports overflow and leaves the
queue unchanged (the new sample is discarded, never blocking); starting
from an empty queue of any capacity, a sequence of pushes with no pops
stores `min n cap` samples and reports exactly `n - min n cap` overflows;
in particular 49,000 pushes against the empty 48,000-capacity queue yield
exactly 1,000 overflow results and a final length of 48,000. -/
theorem sampleQueue_overflow_spec :
    (∀ (q : SampleQueue) (s : Int), q.cap ≤ q.data.length →
        (q.push s).1 = q ∧ (q.push s).2 = false) ∧
    (∀ (cap : Nat) (l : List Int),
        ((SampleQueue.new cap).pushAll l).1.data.length = min l.length cap ∧
        ((SampleQueue.new cap).pushAll l).2 = l.length - min l.length cap) ∧
    ((SampleQueue.new 48000).pushAll (List.replicate 49000 0)).2 = 1000 ∧
    ((SampleQueue.new 48000).pushAll (List.replicate 49000 0)).1.data.length = 48000 := by
  have hfull : ∀ (q : SampleQueue) (s : Int), q.cap ≤ q.data.length →
      (q.push s).1 = q ∧ (q.push s).2 = false := by
    intro q s h
    have : ¬ q.data.length < q.cap := by omega
    simp [SampleQueue.push, this]
  have hgen : ∀ (cap : Nat) (l : List Int),
      ((SampleQueue.new cap).pushAll l).1.data.length = min l.length cap ∧
      ((SampleQueue.new cap).pushAll l).2 = l.length - min l.length cap := by
    intro cap l
    constructor
    · have := SampleQueue.pushAll_length (SampleQueue.new cap) l (by simp [SampleQueue.new])
      simpa [SampleQueue.new] using this
    · have := SampleQueue.pushAll_overflow (SampleQueue.new cap) l (by simp [SampleQueue.new])
      simpa [SampleQueue.new] using this
  refine ⟨hfull, hgen, ?_, ?_⟩
  · have h2 := (hgen 48000 (List.replicate 49000 0)).2
    rw [List.length_replicate] at h2
    omega
  · have h1 := (hgen 48000 (List.replicate 49000 0)).1
    rw [List.length_replicate] at h1
    omega

/-- Witness for C1: a concrete full queue of capacity 1 rejects a push and
is unchanged. -/
theorem sampleQueue_overflow_spec_witness :
    (SampleQueue.mk 1 [5]).cap ≤ (SampleQueue.mk 1 [5]).data.length ∧
    ((SampleQueue.mk 1 [5]).push 7).1 = SampleQueue.mk 1 [5] ∧
    ((SampleQueue.mk 1 [5]).push 7).2 = false :=
  ⟨by decide, (sampleQueue_overflow_spec.1 (SampleQueue.mk 1 [5]) 7 (by decide)).1,
    (sampleQueue_overflow_spec.1 (SampleQueue.mk 1 [5]) 7 (by decide)).2⟩

/-! ## Audio output callbacks (`src/receiver/src/audio/mod.rs`)

`write_data_f32` / `write_data_i16` / `write_data_u16` iterate the output
buffer in frames of `channels` samples (`out.chunks_mut(channels)`), pop
one sample per frame (`q.pop().unwrap_or(0)`, silence on underflow) and
fill the whole frame with the converted value. -/

/-- `q.pop().unwrap_or(0)`: one non-blocking pop, silence `0` on underflow. -/
def popOrZero (q : SampleQueue) : SampleQueue × Int :=
  match q.pop with
  | (q1, some s) => (q1, s)
  | (q1, none) => (q1, 0)

/-- Iterate `popOrZero`, collecting the popped (or substituted) samples. -/
def popsN (q : SampleQueue) : Nat → SampleQueue × List Int
  | 0 => (q, [])
  | m + 1 =>
    let p := popOrZero q
    let r := popsN p.1 m
    (r.1, p.2 :: r.2)

/-- Generic embedding of the `write_data_*` callbacks: `len` is the output
buffer length, `conv` the sample-format conversion; the result lists the
frames written (each frame is the chunk contents). -/
def writeData {α : Type} (conv : Int → α) (channels : Nat) (q : SampleQueue)
    (len : Nat) : SampleQueue × List (List α) :=
  if h : len = 0 ∨ channels = 0 then (q, [])
  else
    let p := popOrZero q
    let r := writeData conv channels p.1 (len - channels)
    (r.1, List.replicate (min channels len) (conv p.2) :: r.2)
termination_by len
decreasing_by
  simp at h
  omega

/-- `write_data_f32`: `v = s as f32 / 32768.0`; exact for 16-bit samples,
modelled in `ℚ`. -/
def write_data_f32 (channels : Nat) (q : SampleQueue) (len : Nat) :
    SampleQueue × List (List ℚ) :=
  writeData (fun s => (s : ℚ) / 32768) channels q len

/-- `write_data_i16`: samples are copied unchanged. -/
def write_data_i16 (channels : Nat) (q : SampleQueue) (len : Nat) :
    SampleQueue × List (List Int) :=
  writeData (fun s => s) channels q len

/-- `write_data_u16`: `(s as i32 + 32768).clamp(0, 65535) as u16`. -/
def write_data_u16 (channels : Nat) (q : SampleQueue) (len : Nat) :
    SampleQueue × List (List Int) :=
  writeData (fun s => max 0 (min (s + 32768) 65535)) channels q len

theorem popsN_spec (m : Nat) (q : SampleQueue) :
    (popsN q m).2 = q.data.take m ++ List.replicate (m - q.data.length) 0 ∧
    (popsN q m).1.data = q.data.drop m ∧
    (popsN q m).1.cap = q.cap := by
  induction m generalizing q with
  | zero => simp [popsN]
  | succ m ih =>
    obtain ⟨cap, data⟩ := q
    cases data with
    | nil =>
      have hp : popOrZero ⟨cap, []⟩ = (⟨cap, []⟩, 0) := rfl
      simp only [popsN, hp]
      have := ih ⟨cap, []⟩
      simp only at this
      simp [this.1, this.2.1, this.2.2, List.replicate_succ]
    | cons x xs =>
      have hp : popOrZero ⟨cap, x :: xs⟩ = (⟨cap, xs⟩, x) := rfl
      simp only [popsN, hp]
      have := ih ⟨cap, xs⟩
      simp [this.1, this.2.1, this.2.2]

theorem writeData_mul {α : Type} (conv : Int → α) (channels m : Nat)
    (q : SampleQueue) (h : 0 < channels) :
    writeData conv channels q (m * channels) =
      ((popsN q m).1, (popsN q m).2.map (fun s => List.replicate channels (conv s))) := by
  induction m generalizing q with
  | zero =>
    rw [writeData]
    simp [popsN]
  | succ m ih =>
    rw [writeData]
    have hlen : (m + 1) * channels ≠ 0 := by positivity
    rw [dif_neg (by omega)]
    have hsub : (m + 1) * channels - channels = m * channels := by ring_nf; omega
    have hmin : min channels ((m + 1) * channels) = channels := by
      have : channels ≤ (m + 1) * channels := by nlinarith
      omega
    simp only [hsub, hmin, ih _ ]
    simp [popsN]

/-- **C2.**  For every output buffer of `m` frames of `channels ≥ 1`
samples each, the audio callback pops exactly one sample per frame —
taking the oldest queued samples in order and substituting silence `0`
once the queue is empty — and fills every channel of the frame with that
one converted value. -/
theorem audio_callback_frames {α : Type} (conv : Int → α) (channels m : Nat)
    (q : SampleQueue) (h : 0 < channels) :
    writeData conv channels q (m * channels) =
      ((popsN q m).1, (popsN q m).2.map (fun s => List.replicate channels (conv s))) ∧
    (popsN q m).2 = q.data.take m ++ List.replicate (m - q.data.length) 0 ∧
    (popsN q m).1.data = q.data.drop m ∧
    (popsN q m).1.cap = q.cap :=
  ⟨writeData_mul conv channels m q h, popsN_spec m q⟩

/-- Witness for C2: a buffer of 2 stereo frames against a queue holding
one sample `7` plays `7` then silence, each duplicated on both channels. -/
theorem audio_callback_frames_witness :
    (0 < 2) ∧
    writeData (fun s => s) 2 (SampleQueue.mk 8 [7]) (2 * 2) =
      ((popsN (SampleQueue.mk 8 [7]) 2).1,
        (popsN (SampleQueue.mk 8 [7]) 2).2.map (fun s => List.replicate 2 s)) ∧
    (popsN (SampleQueue.mk 8 [7]) 2).2 = [7, 0] ∧
    (popsN (SampleQueue.mk 8 [7]) 2).1.data = [] :=
  ⟨by decide,
    (audio_callback_frames (fun s => s) 2 2 (SampleQueue.mk 8 [7]) (by decide)).1,
    by decide, by decide⟩

/-! ## Shared status (`SharedStatus` in `src/receiver/src/core/mod.rs`)

The status record behind the mutex; each Rust setter is one state
transition.  `audio_packets` is a `u64` with saturating addition;
`log_lines` is a `VecDeque<String>`, oldest line first. -/

/-- Maximum log lines retained in memory (`MAX_LOG_LINES`). -/
def MAX_LOG_LINES : Nat := 1500

/-- `u64::MAX`. -/
def U64_MAX : Nat := 2 ^ 64 - 1

structure Status where
  server_running : Bool
  ws_url : Option String
  client_connected : Bool
  client_addr : Option String
  pc_state : Option String
  last_error : Option String
  audio_packets : Nat
  log_lines : List String
deriving Repr, DecidableEq

namespace Status

/-- `Status::default()`. -/
def init : Status := ⟨false, none, false, none, none, none, 0, []⟩

/-- `bump_audio_packets`: `audio_packets.saturating_add(n)` on `u64`. -/
def bump_audio_packets (s : Status) (n : Nat) : Status :=
  { s with audio_packets := min (s.audio_packets + n) U64_MAX }

/-- The `while s.log_lines.len() > MAX_LOG_LINES { s.log_lines.pop_front(); }`
loop of `log_line`: pop the oldest line while over the bound. -/
def popWhileOver : List String → List String
  | [] => []
  | x :: rest =>
    if rest.length + 1 > MAX_LOG_LINES then popWhileOver rest else x :: rest

/-- `log_line`: append the line, then drop oldest lines while over the bound. -/
def log_line (s : Status) (line : String) : Status :=
  { s with log_lines := popWhileOver (s.log_lines ++ [line]) }

/-- `reset_connection`: clears the connection fields (not `audio_packets`). -/
def reset_connection (s : Status) : Status :=
  { s with server_running := false, client_connected := false,
           client_addr := none, pc_state := none }

end Status

/-- The mutating operations offered by `SharedStatus`. -/
inductive StatusOp
  | setServerRunning (b : Bool)
  | setWsUrl (u : Option String)
  | setClientConnected (b : Bool)
  | setClientAddr (a : Option String)
  | setPcState (p : Option String)
  | setLastError (e : Option String)
  | bumpAudioPackets (n : Nat)
  | logLine (line : String)
  | resetConnection

def applyOp : StatusOp → Status → Status
  | .setServerRunning b, s => { s with server_running := b }
  | .setWsUrl u, s => { s with ws_url := u }
  | .setClientConnected b, s => { s with client_connected := b }
  | .setClientAddr a, s => { s with client_addr := a }
  | .setPcState p, s => { s with pc_state := p }
  | .setLastError e, s => { s with last_error := e }
  | .bumpAudioPackets n, s => s.bump_audio_packets n
  | .logLine line, s => s.log_line line
  | .resetConnection, s => s.reset_connection

theorem popWhileOver_eq_drop (l : List String) :
    Status.popWhileOver l = l.drop (l.length - MAX_LOG_LINES) := by
  induction l with
  | nil => rfl
  | cons x rest ih =>
    show (if rest.length + 1 > MAX_LOG_LINES then Status.popWhileOver rest
        else x :: rest) = _
    by_cases hc : rest.length + 1 > MAX_LOG_LINES
    · rw [if_pos hc, ih]
      have h1 : (x :: rest).length - MAX_LOG_LINES = (rest.length - MAX_LOG_LINES) + 1 := by
        simp
        omega
      rw [h1]
      simp
    · rw [if_neg hc]
      have h0 : (x :: rest).length - MAX_LOG_LINES = 0 := by
        simp
        omega
      rw [h0]
      rfl

/-- **C9.**  The delivered-packet counter is monotone non-decreasing under
every `SharedStatus` operation, never exceeds `u64::MAX` (saturating add,
no wraparound), stays at `u64::MAX` once reached, and below saturation the
per-frame bump (`bump_audio_packets(1)`, issued once per received RTP
frame) increments it by exactly one. -/
theorem audio_packets_monotone (op : StatusOp) (s : Status)
    (h : s.audio_packets ≤ U64_MAX) :
    s.audio_packets ≤ (applyOp op s).audio_packets ∧
    (applyOp op s).audio_packets ≤ U64_MAX ∧
    (s.audio_packets = U64_MAX → (applyOp op s).audio_packets = U64_MAX) ∧
    (s.audio_packets + 1 ≤ U64_MAX →
      (s.bump_audio_packets 1).audio_packets = s.audio_packets + 1) := by
  refine ⟨?_, ?_, ?_, ?_⟩ <;>
    cases op <;>
      simp_all [applyOp, Status.bump_audio_packets, Status.log_line,
        Status.reset_connection] <;>
      omega


/-- Witness for C9: bumping the fresh status by 5 moves the counter from 0
to a value that is still at least 0 and at most `u64::MAX`. -/
theorem audio_packets_monotone_witness :
    Status.init.audio_packets ≤ U64_MAX ∧
    Status.init.audio_packets ≤
      (applyOp (StatusOp.bumpAudioPackets 5) Status.init).audio_packets ∧
    (applyOp (StatusOp.bumpAudioPackets 5) Status.init).audio_packets ≤ U64_MAX :=
  ⟨by decide,
    (audio_packets_monotone (StatusOp.bumpAudioPackets 5) Status.init (by decide)).1,
    (audio_packets_monotone (StatusOp.bumpAudioPackets 5) Status.init (by decide)).2.1⟩

/-- **C10.**  After every `log_line` the retained log is exactly the most
recent `min (n+1) 1500` lines of the appended sequence: at most 1,500
lines are kept, the oldest are removed first, and what remains is a
suffix (in append order) of the lines ever logged. -/
theorem log_line_bound (s : Status) (line : String) :
    (s.log_line line).log_lines =
      (s.log_lines ++ [line]).drop ((s.log_lines.length + 1) - MAX_LOG_LINES) ∧
    (s.log_line line).log_lines.length ≤ MAX_LOG_LINES ∧
    (s.log_line line).log_lines.length =
      min (s.log_lines.length + 1) MAX_LOG_LINES ∧
    List.IsSuffix (s.log_line line).log_lines (s.log_lines ++ [line]) := by
  have hd : (s.log_line line).log_lines =
      (s.log_lines ++ [line]).drop ((s.log_lines.length + 1) - MAX_LOG_LINES) := by
    rw [Status.log_line]
    simp only [popWhileOver_eq_drop]
    simp
  refine ⟨hd, ?_, ?_, ?_⟩
  · rw [hd]
    simp
    omega
  · rw [hd]
    simp
    omega
  · rw [hd]
    exact List.drop_suffix _ _

/-! ## Media decode path (`decode_track_to_queue`, lines 352-370)

For each decoded frame the stereo branch computes
`m = ((pcm[2i] as i32 + pcm[2i+1] as i32) / 2) as i16` — Rust `/` on `i32`
truncates toward zero, i.e. `Int.tdiv` — and pushes `m`; the mono branch
pushes `pcm[i]` unmodified.  Each failed push bumps `local_dropped`. -/

/-- Stereo PCM buffer layout: `pcm[2i]` left, `pcm[2i+1]` right. -/
def interleave : List (Int × Int) → List Int
  | [] => []
  | (l, r) :: rest => l :: r :: interleave rest

/-- One `queue.push`, accumulating the drop count on overflow. -/
def pushStep (acc : SampleQueue × Nat) (m : Int) : SampleQueue × Nat :=
  let p := acc.1.push m
  (p.1, acc.2 + if p.2 then 0 else 1)

/-- The mono samples produced from one decoded frame of `n` per-channel
samples: downmixed averages for stereo, the raw samples for mono. -/
def decodedPushList (channels : Nat) (pcm : List Int) (n : Nat) : List Int :=
  if channels ≥ 2 then
    (List.range n).map (fun i =>
      Int.tdiv (pcm.getD (2 * i) 0 + pcm.getD (2 * i + 1) 0) 2)
  else
    (List.range n).map (fun i => pcm.getD i 0)

/-- The per-frame push loop of `decode_track_to_queue`: for `i in 0..n`
push the (downmixed or raw) sample and count overflow drops. -/
def decodeFramePush (channels : Nat) (pcm : List Int) (n : Nat)
    (q : SampleQueue) : SampleQueue × Nat :=
  if channels ≥ 2 then
    (List.range n).foldl (fun acc i =>
      pushStep acc (Int.tdiv (pcm.getD (2 * i) 0 + pcm.getD (2 * i + 1) 0) 2))
      (q, 0)
  else
    (List.range n).foldl (fun acc i => pushStep acc (pcm.getD i 0)) (q, 0)

theorem foldl_pushStep (samples : List Int) (q : SampleQueue) (c : Nat) :
    samples.foldl pushStep (q, c) =
      ((q.pushAll samples).1, c + (q.pushAll samples).2) := by
  induction samples generalizing q c with
  | nil => simp [SampleQueue.pushAll]
  | cons s rest ih =>
    show rest.foldl pushStep (pushStep (q, c) s) = _
    rw [pushStep]
    simp only
    rw [ih]
    show _ = (((q.push s).1.pushAll rest).1,
      c + ((if (q.push s).2 then 0 else 1) + ((q.push s).1.pushAll rest).2))
    rcases h : (q.push s).2 <;> simp <;> omega

theorem interleave_getD (pairs : List (Int × Int)) (i : Nat)
    (h : i < pairs.length) :
    (interleave pairs).getD (2 * i) 0 = (pairs.getD i (0, 0)).1 ∧
    (interleave pairs).getD (2 * i + 1) 0 = (pairs.getD i (0, 0)).2 := by
  induction pairs generalizing i with
  | nil => simp at h
  | cons p rest ih =>
    obtain ⟨l, r⟩ := p
    cases i with
    | zero => simp [interleave]
    | succ j =>
      have h2 : 2 * (j + 1) = 2 * j + 1 + 1 := by omega
      rw [h2]
      simp only [interleave, List.getD_cons_succ, List.getD_cons_succ]
      exact ih j (by simp at h; omega)

/-- The truncating halving used for the downmix is a rounding of the exact
average: `2 * ((l + r).tdiv 2)` is within 1 of `l + r`. -/
theorem tdiv_two_rounds (x : Int) : |x - 2 * x.tdiv 2| ≤ 1 := by
  have hd : x - 2 * x.tdiv 2 = x.tmod 2 := by
    rw [Int.tmod_def]
  rw [hd]
  rcases le_or_lt 0 x with hx | hx
  · have h1 := Int.tmod_nonneg 2 hx
    have h2 := Int.tmod_lt_of_pos x (by norm_num : (0 : Int) < 2)
    rw [abs_le]
    omega
  · have hx2 : 0 ≤ -x := by omega
    have h1 := Int.tmod_nonneg 2 hx2
    have h2 := Int.tmod_lt_of_pos (-x) (by norm_num : (0 : Int) < 2)
    have h3 : (-x).tmod 2 = -(x.tmod 2) := by
      rw [Int.tmod_def, Int.tmod_def, Int.neg_tdiv]
      ring
    rw [h3] at h1 h2
    rw [abs_le]
    omega

theorem decodedPushList_stereo (pairs : List (Int × Int)) :
    decodedPushList 2 (interleave pairs) pairs.length =
      pairs.map (fun p => Int.tdiv (p.1 + p.2) 2) := by
  apply List.ext_getElem
  · simp [decodedPushList]
  · intro i h1 h2
    have hi : i < pairs.length := by simpa [decodedPushList] using h1
    have hget := interleave_getD pairs i hi
    simp only [decodedPushList, if_pos (by norm_num : 2 ≥ 2)] at h1 ⊢
    rw [List.getElem_map, List.getElem_map, List.getElem_range]
    rw [hget.1, hget.2, List.getD_eq_getElem pairs (0, 0) hi]

/-- **C5.**  For every decoded stereo frame sequence of `N` left/right
pairs, the decode path pushes exactly `N` mono samples, the `i`-th being
the truncated average `(l + r) / 2` of the `i`-th pair — a rounding of
the exact average to within one — while a mono source's samples are
pushed unmodified; in both cases the per-frame loop pushes exactly that
sample list to the Sample Bridge, counting overflows as drops. -/
theorem decode_downmix_spec (pairs : List (Int × Int)) (pcm : List Int)
    (n : Nat) (q : SampleQueue) :
    decodedPushList 2 (interleave pairs) pairs.length =
      pairs.map (fun p => Int.tdiv (p.1 + p.2) 2) ∧
    (decodedPushList 2 (interleave pairs) pairs.length).length = pairs.length ∧
    (∀ p ∈ pairs, |(p.1 + p.2) - 2 * Int.tdiv (p.1 + p.2) 2| ≤ 1) ∧
    (n ≤ pcm.length → decodedPushList 1 pcm n = pcm.take n) ∧
    decodeFramePush 2 (interleave pairs) pairs.length q =
      q.pushAll (decodedPushList 2 (interleave pairs) pairs.length) ∧
    decodeFramePush 1 pcm n q = q.pushAll (decodedPushList 1 pcm n) := by
  refine ⟨decodedPushList_stereo pairs, by simp [decodedPushList], ?_, ?_, ?_, ?_⟩
  · intro p _
    exact tdiv_two_rounds (p.1 + p.2)
  · intro hn
    apply List.ext_getElem
    · simp [decodedPushList]
      omega
    · intro i h1 h2
      have hi : i < n := by simpa [decodedPushList] using h1
      simp only [decodedPushList, if_neg (by norm_num : ¬ (1 ≥ 2))] at h1 ⊢
      rw [List.getElem_map, List.getElem_range, List.getElem_take]
      exact List.getD_eq_getElem pcm 0 (by omega)
  · show (List.range pairs.length).foldl _ (q, 0) = _
    rw [decodedPushList, if_pos (by norm_num : 2 ≥ 2), ← List.foldl_map,
      foldl_pushStep]
    simp
  · show (List.range n).foldl _ (q, 0) = _
    rw [decodedPushList, if_neg (by norm_num : ¬ (1 ≥ 2)), ← List.foldl_map,
      foldl_pushStep]
    simp

/-- Witness for C5: the two stereo pairs `(1,2)` and `(-1,-2)` downmix to
`[1, -1]` (truncation toward zero) and both are within one of twice the
exact average. -/
theorem decode_downmix_spec_witness :
    decodedPushList 2 (interleave [((1 : Int), (2 : Int)), (-1, -2)]) 2 =
      [1, -1] ∧
    |((1 : Int) + 2) - 2 * Int.tdiv (1 + 2) 2| ≤ 1 ∧
    ((2 : Nat) ≤ ([5, 6, 7] : List Int).length) ∧
    decodedPushList 1 [5, 6, 7] 2 = [5, 6] := by
  have h := decode_downmix_spec [((1 : Int), (2 : Int)), (-1, -2)]
    [5, 6, 7] 2 (SampleQueue.new 4)
  refine ⟨?_, h.2.2.1 (1, 2) (by decide), by decide, ?_⟩
  · rw [show ([((1 : Int), (2 : Int)), (-1, -2)] : List (Int × Int)).length = 2 by rfl]
      at h
    rw [h.1]
    decide
  · rw [h.2.2.2.1 (by decide)]
    decide

/-! ## Signaling messages (`handle_signal_message` in `webrtc_session.rs`)

State per session: the peer connection's remote description, the
`pending_ice` buffer, and the ordered list of candidates handed to
`add_ice_candidate` (`applied`).  `answered` counts answers sent back. -/

structure SignalMessage where
  msgType : String
  sdp : Option String
  candidate : Option String
  sdpMid : Option String
  sdpMlineIndex : Option Int
deriving Repr, DecidableEq

structure RTCIceCandidateInit where
  candidate : String
  sdp_mid : Option String
  sdp_mline_index : Option Nat
  username_fragment : Option String
deriving Repr, DecidableEq

/-- The `RTCIceCandidateInit` built for an inbound `"ice"` message whose
`candidate` field is `c`; `sdpMLineIndex` is an `i32` cast `as u16`. -/
def iceInitOf (signal : SignalMessage) (c : String) : RTCIceCandidateInit :=
  { candidate := c
    sdp_mid := some (signal.sdpMid.getD "")
    sdp_mline_index := some ((signal.sdpMlineIndex.getD 0).emod 65536).toNat
    username_fragment := some "" }

structure SessionModel where
  remoteDesc : Option String
  pending : List RTCIceCandidateInit
  applied : List RTCIceCandidateInit
  answered : Nat
deriving Repr, DecidableEq

/-- The fresh session state: no remote description, empty ICE buffer. -/
def initSession : SessionModel := ⟨none, [], [], 0⟩

/-- Embedding of `handle_signal_message`: SDP messages set the remote
description and then drain `pending_ice` into `add_ice_candidate` in
order (answering if the SDP was an offer); ICE messages are buffered
before a remote description exists and applied immediately afterwards;
pings and unknown types are ignored. -/
def handle_signal_message (signal : SignalMessage) (s : SessionModel) :
    SessionModel :=
  if signal.msgType = "offer" ∨ signal.msgType = "answer" then
    match signal.sdp with
    | some sdpStr =>
      let s1 := { s with remoteDesc := some sdpStr,
                         applied := s.applied ++ s.pending,
                         pending := [] }
      if signal.msgType = "offer" then { s1 with answered := s1.answered + 1 }
      else s1
    | none => s
  else if signal.msgType = "ice" then
    match signal.candidate with
    | some c =>
      let init := iceInitOf signal c
      if s.remoteDesc = none then { s with pending := s.pending ++ [init] }
      else { s with applied := s.applied ++ [init] }
    | none => s
  else s

/-- Process a whole inbound message sequence. -/
def processAll (s : SessionModel) (msgs : List SignalMessage) : SessionModel :=
  msgs.foldl (fun acc m => handle_signal_message m acc) s

/-- The ICE candidates carried by a message sequence, in arrival order. -/
def iceArrivals (msgs : List SignalMessage) : List RTCIceCandidateInit :=
  msgs.filterMap (fun m =>
    if m.msgType = "ice" then m.candidate.map (iceInitOf m) else none)

theorem handle_signal_step (m : SignalMessage) (s : SessionModel)
    (hinv : s.remoteDesc = none ∨ s.pending = []) :
    (handle_signal_message m s).applied ++ (handle_signal_message m s).pending
        = s.applied ++ s.pending ++ iceArrivals [m] ∧
    ((handle_signal_message m s).remoteDesc = none ∨
      (handle_signal_message m s).pending = []) := by
  unfold handle_signal_message iceArrivals
  by_cases hsdp : m.msgType = "offer" ∨ m.msgType = "answer"
  · rw [if_pos hsdp]
    have hni : ¬ m.msgType = "ice" := by
      rcases hsdp with h | h <;> simp [h]
    cases hb : m.sdp with
    | none =>
      simp [hni]
      exact hinv
    | some b =>
      by_cases ho : m.msgType = "offer" <;> simp [ho, hni]
  · rw [if_neg hsdp]
    by_cases hice : m.msgType = "ice"
    · rw [if_pos hice]
      cases hc : m.candidate with
      | none =>
        simp [hice, hc]
        exact hinv
      | some c =>
        by_cases hrd : s.remoteDesc = none
        · simp [hice, hrd, hc]
        · have hp : s.pending = [] := by tauto
          simp [hice, hrd, hp, hc]
    · rw [if_neg hice]
      simp [hice, hsdp]
      exact hinv

theorem processAll_invariant (msgs : List SignalMessage) (s : SessionModel)
    (hinv : s.remoteDesc = none ∨ s.pending = []) :
    (processAll s msgs).applied ++ (processAll s msgs).pending
        = s.applied ++ s.pending ++ iceArrivals msgs ∧
    ((processAll s msgs).remoteDesc = none ∨ (processAll s msgs).pending = []) := by
  induction msgs generalizing s with
  | nil => simp [processAll, iceArrivals]; exact hinv
  | cons m rest ih =>
    have hPA : processAll s (m :: rest) =
        processAll (handle_signal_message m s) rest := rfl
    have hstep := handle_signal_step m s hinv
    have hrest := ih (handle_signal_message m s) hstep.2
    rw [hPA]
    refine ⟨?_, hrest.2⟩
    rw [hrest.1, hstep.1]
    have hsplit : iceArrivals (m :: rest) = iceArrivals [m] ++ iceArrivals rest := by
      unfold iceArrivals
      cases hf : (if m.msgType = "ice" then Option.map (iceInitOf m) m.candidate
          else none) with
      | none => simp [List.filterMap_cons, hf]
      | some b => simp [List.filterMap_cons, hf]
    rw [hsplit]
    simp

/-- **C3.**  Over any inbound message sequence, the candidates handed to
`add_ice_candidate` followed by the still-buffered ones are exactly the
ICE candidates in arrival order — none dropped, none reordered — and the
buffer is empty whenever a remote description is set.  Stepwise: a
session-description message sets the remote description and immediately
flushes the whole buffer into `applied` in order; an ICE candidate
arriving before the description is appended to the buffer; one arriving
afterwards is applied immediately. -/
theorem ice_buffer_order (msgs : List SignalMessage) (s : SessionModel)
    (m : SignalMessage) (sdpBody : String) (c : String) :
    ((processAll initSession msgs).applied ++ (processAll initSession msgs).pending
        = iceArrivals msgs) ∧
    ((processAll initSession msgs).remoteDesc ≠ none →
        (processAll initSession msgs).pending = []) ∧
    ((m.msgType = "offer" ∨ m.msgType = "answer") → m.sdp = some sdpBody →
      (handle_signal_message m s).applied = s.applied ++ s.pending ∧
      (handle_signal_message m s).pending = [] ∧
      (handle_signal_message m s).remoteDesc = some sdpBody) ∧
    (m.msgType = "ice" → m.candidate = some c → s.remoteDesc ≠ none →
      (handle_signal_message m s).applied = s.applied ++ [iceInitOf m c] ∧
      (handle_signal_message m s).pending = s.pending) ∧
    (m.msgType = "ice" → m.candidate = some c → s.remoteDesc = none →
      (handle_signal_message m s).pending = s.pending ++ [iceInitOf m c] ∧
      (handle_signal_message m s).applied = s.applied) := by
  have hglob := processAll_invariant msgs initSession (by simp [initSession])
  refine ⟨?_, ?_, ?_, ?_, ?_⟩
  · have := hglob.1
    simpa [initSession] using this
  · intro hrd
    rcases hglob.2 with h | h
    · exact absurd h hrd
    · exact h
  · intro hsdp hbody
    have hni : ¬ m.msgType = "ice" := by
      rcases hsdp with h | h <;> simp [h]
    unfold handle_signal_message
    rw [if_pos hsdp, hbody]
    by_cases ho : m.msgType = "offer" <;> simp [ho]
  · intro hice hcand hrd
    have hns : ¬ (m.msgType = "offer" ∨ m.msgType = "answer") := by
      simp [hice]
    unfold handle_signal_message
    rw [if_neg hns, if_pos hice, hcand]
    simp [hrd]
  · intro hice hcand hrd
    have hns : ¬ (m.msgType = "offer" ∨ m.msgType = "answer") := by
      simp [hice]
    unfold handle_signal_message
    rw [if_neg hns, if_pos hice, hcand]
    simp [hrd]

/-- Witness for C3: two candidates buffered before the offer, flushed by
it in order, then one applied immediately. -/
theorem ice_buffer_order_witness :
    (processAll initSession
        [⟨"ice", none, some "c1", some "0", some 0⟩,
         ⟨"ice", none, some "c2", some "0", some 0⟩,
         ⟨"offer", some "v=0", none, none, none⟩,
         ⟨"ice", none, some "c3", some "0", some 0⟩]).applied ++
      (processAll initSession
        [⟨"ice", none, some "c1", some "0", some 0⟩,
         ⟨"ice", none, some "c2", some "0", some 0⟩,
         ⟨"offer", some "v=0", none, none, none⟩,
         ⟨"ice", none, some "c3", some "0", some 0⟩]).pending
      = iceArrivals
        [⟨"ice", none, some "c1", some "0", some 0⟩,
         ⟨"ice", none, some "c2", some "0", some 0⟩,
         ⟨"offer", some "v=0", none, none, none⟩,
         ⟨"ice", none, some "c3", some "0", some 0⟩] ∧
    (processAll initSession
        [⟨"ice", none, some "c1", some "0", some 0⟩,
         ⟨"ice", none, some "c2", some "0", some 0⟩,
         ⟨"offer", some "v=0", none, none, none⟩,
         ⟨"ice", none, some "c3", some "0", some 0⟩]).pending = [] ∧
    (handle_signal_message ⟨"offer", some "v=0", none, none, none⟩
        (SessionModel.mk none
          [iceInitOf ⟨"ice", none, some "c1", some "0", some 0⟩ "c1"] [] 0)).pending
      = [] ∧
    (handle_signal_message ⟨"offer", some "v=0", none, none, none⟩
        (SessionModel.mk none
          [iceInitOf ⟨"ice", none, some "c1", some "0", some 0⟩ "c1"] [] 0)).applied
      = [iceInitOf ⟨"ice", none, some "c1", some "0", some 0⟩ "c1"] :=
  ⟨(ice_buffer_order
      [⟨"ice", none, some "c1", some "0", some 0⟩,
       ⟨"ice", none, some "c2", some "0", some 0⟩,
       ⟨"offer", some "v=0", none, none, none⟩,
       ⟨"ice", none, some "c3", some "0", some 0⟩]
      initSession ⟨"ping", none, none, none, none⟩ "" "").1,
    by decide,
    ((ice_buffer_order []
        (SessionModel.mk none
          [iceInitOf ⟨"ice", none, some "c1", some "0", some 0⟩ "c1"] [] 0)
        ⟨"offer", some "v=0", none, none, none⟩ "v=0" "").2.2.1
      (Or.inl rfl) rfl).2.1,
    ((ice_buffer_order []
        (SessionModel.mk none
          [iceInitOf ⟨"ice", none, some "c1", some "0", some 0⟩ "c1"] [] 0)
        ⟨"offer", some "v=0", none, none, none⟩ "v=0" "").2.2.1
      (Or.inl rfl) rfl).1⟩

/-! ## WebSocket connection guard (`ws_handler` in `signaling.rs`)

`SessionState` is the state activated on Start: the shared queue, the
STUN flag, the `active` guard flag, and the cancellation token.  The
guard phase of `ws_handler` rejects the connection when no session state
exists or when `active` is already set; otherwise it sets `active` and
the connected-status fields. -/

structure SessionGuard where
  queueId : Nat
  use_stun : Bool
  active : Bool
  cancelled : Bool
deriving Repr, DecidableEq

structure ServerModel where
  session : Option SessionGuard
  shared : Status
deriving Repr, DecidableEq

/-- The guard phase of `ws_handler` for a client at `clientIp`: returns
the updated server state and whether the connection was accepted. -/
def ws_handler_guard (clientIp : String) (st : ServerModel) :
    ServerModel × Bool :=
  match st.session with
  | none =>
    ({ st with shared := st.shared.log_line "Rejected WebSocket: server not started." },
      false)
  | some sess =>
    if sess.active then
      ({ st with shared := st.shared.log_line "Rejected WebSocket: already connected." },
        false)
    else
      let connected :=
        { st.shared with
            client_connected := true
            client_addr := some clientIp
            pc_state := some "new" }
      ({ session := some { sess with active := true }
         shared := connected.log_line "WebSocket client connected." },
        true)

/-- **C4.**  While a session is active (`active` guard set), a second
inbound signaling connection is rejected, and the rejection leaves the
active session untouched: the guard flag stays set and the session's
queue, STUN flag and cancellation token are exactly as before; only a log
line is appended to the shared status. -/
theorem second_connection_rejected (clientIp : String) (st : ServerModel)
    (sess : SessionGuard) (hs : st.session = some sess)
    (ha : sess.active = true) :
    (ws_handler_guard clientIp st).2 = false ∧
    (ws_handler_guard clientIp st).1.session = some sess ∧
    (ws_handler_guard clientIp st).1.session.map SessionGuard.active = some true ∧
    (ws_handler_guard clientIp st).1.session.map SessionGuard.queueId =
      some sess.queueId ∧
    (ws_handler_guard clientIp st).1.session.map SessionGuard.cancelled =
      some sess.cancelled ∧
    (ws_handler_guard clientIp st).1.shared =
      st.shared.log_line "Rejected WebSocket: already connected." := by
  have hgl : ws_handler_guard clientIp st =
      ({ st with shared := st.shared.log_line "Rejected WebSocket: already connected." },
        false) := by
    unfold ws_handler_guard
    rw [hs]
    simp [ha]
  rw [hgl]
  simp [hs, ha]

/-- Witness for C4: a concrete active session rejects a second attempt
with its guard, queue id and token intact. -/
theorem second_connection_rejected_witness :
    (ServerModel.mk (some ⟨7, false, true, false⟩) Status.init).session =
      some ⟨7, false, true, false⟩ ∧
    (ws_handler_guard "10.0.0.2"
      (ServerModel.mk (some ⟨7, false, true, false⟩) Status.init)).2 = false ∧
    (ws_handler_guard "10.0.0.2"
      (ServerModel.mk (some ⟨7, false, true, false⟩) Status.init)).1.session =
      some ⟨7, false, true, false⟩ :=
  ⟨rfl,
    (second_connection_rejected "10.0.0.2"
      (ServerModel.mk (some ⟨7, false, true, false⟩) Status.init)
      ⟨7, false, true, false⟩ rfl rfl).1,
    (second_connection_rejected "10.0.0.2"
      (ServerModel.mk (some ⟨7, false, true, false⟩) Status.init)
      ⟨7, false, true, false⟩ rfl rfl).2.1⟩

/-! ## Audio Output Driver (`AudioOutput::start`, `pick_output_config`)

The cpal host and devices are oracles: each `Except`-valued field records
what the corresponding driver call would return. -/

inductive SampleFormat
  | f32
  | i16
  | u16
  | other (nm : String)
deriving Repr, DecidableEq

structure SupportedStreamConfigRange where
  channels : Nat
  minSampleRate : Nat
  maxSampleRate : Nat
  sampleFormat : SampleFormat
deriving Repr, DecidableEq

structure SupportedStreamConfig where
  channels : Nat
  sampleRate : Nat
  sampleFormat : SampleFormat
deriving Repr, DecidableEq

/-- `SupportedStreamConfigRange::with_sample_rate`. -/
def SupportedStreamConfigRange.withSampleRate
    (r : SupportedStreamConfigRange) (rate : Nat) : SupportedStreamConfig :=
  ⟨r.channels, rate, r.sampleFormat⟩

/-- A cpal output device; driver behaviour is recorded in oracle fields.
`buildPlay` is `none` when `build_output_stream` and `play()` both
succeed, and `some e` when one of them fails with error `e`. -/
structure Device where
  name : Except String String
  supportedOutputConfigs : Except String (List SupportedStreamConfigRange)
  defaultOutputConfig : Except String SupportedStreamConfig
  buildPlay : Option String
deriving Repr

structure Host where
  outputDevices : Except String (List Device)
  defaultOutputDevice : Option Device
deriving Repr

/-- Channel-count penalty of the `sort_by_key` key (stereo best). -/
def chPenalty : Nat → Nat
  | 2 => 0
  | 1 => 1
  | _ => 2

/-- Sample-format penalty of the `sort_by_key` key (f32 best). -/
def fmtPenalty : SampleFormat → Nat
  | .f32 => 0
  | .i16 => 1
  | .u16 => 2
  | .other _ => 3

/-- Lexicographic order on the `(ch, fmt)` sort key. -/
def penaltyLe (r1 r2 : SupportedStreamConfigRange) : Bool :=
  decide (chPenalty r1.channels < chPenalty r2.channels ∨
    (chPenalty r1.channels = chPenalty r2.channels ∧
      fmtPenalty r1.sampleFormat ≤ fmtPenalty r2.sampleFormat))

/-- Whether a config range covers the 48 kHz rate. -/
def covers48k (r : SupportedStreamConfigRange) : Bool :=
  decide (r.minSampleRate ≤ 48000 ∧ 48000 ≤ r.maxSampleRate)

/-- The `device.default_output_config().map_err(...)` fallback of
`pick_output_config`. -/
def defaultConfigFallback (d : Device) : Except String SupportedStreamConfig :=
  match d.defaultOutputConfig with
  | .ok c => .ok c
  | .error e => .error ("No suitable output config: " ++ e)

/-- Embedding of `pick_output_config`: filter the supported ranges to
those covering 48 kHz, stable-sort by the `(ch, fmt)` penalty key, and
return the best at rate 48 kHz; if enumeration fails or no range covers
48 kHz, fall back to the device's default output config. -/
def pick_output_config (d : Device) : Except String SupportedStreamConfig :=
  match d.supportedOutputConfigs with
  | .ok ranges =>
    match (ranges.filter covers48k).mergeSort penaltyLe with
    | best :: _ => .ok (best.withSampleRate 48000)
    | [] => defaultConfigFallback d
  | .error _ => defaultConfigFallback d

/-- `d.name().unwrap_or_default() == name`, the resolution predicate. -/
def nameMatches (nm : String) (d : Device) : Bool :=
  (match d.name with
   | .ok n => n
   | .error _ => "") == nm

structure AudioOutputModel where
  deviceName : String
  config : SupportedStreamConfig
deriving Repr, DecidableEq

/-- Embedding of `AudioOutput::start`: resolve the named or default
device, pick a config, reject unsupported sample formats, then build and
play the stream. -/
def AudioOutput.start (host : Host) (outputDeviceName : Option String) :
    Except String AudioOutputModel :=
  let deviceRes : Except String Device :=
    match outputDeviceName with
    | some nm =>
      match host.outputDevices with
      | .error e => .error e
      | .ok devs =>
        match devs.find? (nameMatches nm) with
        | some d => .ok d
        | none => .error ("Output device not found: " ++ nm)
    | none =>
      match host.defaultOutputDevice with
      | some d => .ok d
      | none => .error "No default output device"
  match deviceRes with
  | .error e => .error e
  | .ok device =>
    let deviceName :=
      match device.name with
      | .ok n => n
      | .error _ => "<unknown>"
    match pick_output_config device with
    | .error e => .error e
    | .ok supported =>
      match supported.sampleFormat with
      | .other fmtName => .error ("Unsupported sample format: " ++ fmtName)
      | _ =>
        match device.buildPlay with
        | some e => .error e
        | none => .ok ⟨deviceName, supported⟩

/-- **C6 counterexample.**  A device whose only supported configuration
is fixed at 44.1 kHz — so that no stream configuration satisfies 48 kHz —
does not make `start` fail: `pick_output_config` falls back to the
device's default output config and `start` opens a stream at 44,100 Hz. -/
theorem audio_start_48k_counterexample :
    (List.filter covers48k [⟨2, 44100, 44100, .f32⟩] = []) ∧
    AudioOutput.start
      (Host.mk
        (.ok [⟨.ok "Speakers", .ok [⟨2, 44100, 44100, .f32⟩],
               .ok ⟨2, 44100, .f32⟩, none⟩])
        (some ⟨.ok "Speakers", .ok [⟨2, 44100, 44100, .f32⟩],
               .ok ⟨2, 44100, .f32⟩, none⟩))
      none
      = .ok ⟨"Speakers", ⟨2, 44100, .f32⟩⟩ ∧
    (44100 : Nat) ≠ 48000 := by
  refine ⟨by decide, ?_, by decide⟩
  show AudioOutput.start _ none = _
  unfold AudioOutput.start
  simp only
  rw [show pick_output_config
      ⟨.ok "Speakers", .ok [⟨2, 44100, 44100, .f32⟩], .ok ⟨2, 44100, .f32⟩, none⟩
      = .ok ⟨2, 44100, .f32⟩ by
    unfold pick_output_config
    simp [covers48k, defaultConfigFallback]]

/-- **C6 (amended).**  `AudioOutput::start` returns a typed error — never
a crash — when device enumeration fails, when no default device exists,
or when the underlying driver open/play call fails; but when no supported
stream configuration satisfies 48 kHz, `start` does not fail:
`pick_output_config` falls back to the device's *default* output config
(possibly at another rate), and the error
`"No suitable output config"` is returned only if querying that default
also fails. -/
theorem audio_start_typed_errors (host : Host) (nm e : String) (d : Device)
    (cfg : SupportedStreamConfig)
    (ranges : List SupportedStreamConfigRange) :
    (host.outputDevices = .error e →
      AudioOutput.start host (some nm) = .error e) ∧
    (host.defaultOutputDevice = none →
      AudioOutput.start host none = .error "No default output device") ∧
    (host.defaultOutputDevice = some d → pick_output_config d = .ok cfg →
      (∀ s, cfg.sampleFormat ≠ .other s) → d.buildPlay = some e →
      AudioOutput.start host none = .error e) ∧
    (d.supportedOutputConfigs = .ok ranges → ranges.filter covers48k = [] →
      pick_output_config d = defaultConfigFallback d) ∧
    (d.supportedOutputConfigs = .ok ranges → ranges.filter covers48k = [] →
      d.defaultOutputConfig = .error e →
      pick_output_config d = .error ("No suitable output config: " ++ e)) := by
  refine ⟨?_, ?_, ?_, ?_, ?_⟩
  · intro h
    simp [AudioOutput.start, h]
  · intro h
    simp [AudioOutput.start, h]
  · intro h1 h2 h3 h4
    rcases hcf : cfg.sampleFormat with _ | _ | _ | s
    · simp [AudioOutput.start, h1, h2, hcf, h4]
    · simp [AudioOutput.start, h1, h2, hcf, h4]
    · simp [AudioOutput.start, h1, h2, hcf, h4]
    · exact absurd hcf (h3 s)
  · intro h1 h2
    simp [pick_output_config, h1, h2]
  · intro h1 h2 h3
    simp [pick_output_config, h1, h2, defaultConfigFallback, h3]

/-- Witness for C6: with no default device, `start(None)` is the
"No default output device" error; a 48 kHz-capable device whose
`play()` fails surfaces that failure; a device with an erroring config
query and no 48 kHz range yields the "No suitable output config" error. -/
theorem audio_start_typed_errors_witness :
    AudioOutput.start (Host.mk (.ok []) none) none =
      .error "No default output device" ∧
    AudioOutput.start
      (Host.mk
        (.ok [⟨.ok "Y", .ok [⟨2, 48000, 48000, .f32⟩],
              .ok ⟨2, 48000, .f32⟩, some "boom"⟩])
        (some ⟨.ok "Y", .ok [⟨2, 48000, 48000, .f32⟩],
              .ok ⟨2, 48000, .f32⟩, some "boom"⟩))
      none = .error "boom" ∧
    pick_output_config (Device.mk (.ok "X") (.ok []) (.error "backend") none) =
      .error ("No suitable output config: " ++ "backend") := by
  have hpick : pick_output_config
      ⟨.ok "Y", .ok [⟨2, 48000, 48000, .f32⟩], .ok ⟨2, 48000, .f32⟩, some "boom"⟩
      = .ok ⟨2, 48000, .f32⟩ := by
    unfold pick_output_config
    simp [covers48k, SupportedStreamConfigRange.withSampleRate]
  refine ⟨?_, ?_, ?_⟩
  · exact (audio_start_typed_errors (Host.mk (.ok []) none) "" ""
      (Device.mk (.ok "X") (.ok []) (.error "backend") none)
      ⟨2, 48000, .f32⟩ []).2.1 rfl
  · exact (audio_start_typed_errors
      (Host.mk
        (.ok [⟨.ok "Y", .ok [⟨2, 48000, 48000, .f32⟩],
              .ok ⟨2, 48000, .f32⟩, some "boom"⟩])
        (some ⟨.ok "Y", .ok [⟨2, 48000, 48000, .f32⟩],
              .ok ⟨2, 48000, .f32⟩, some "boom"⟩))
      "" "boom"
      ⟨.ok "Y", .ok [⟨2, 48000, 48000, .f32⟩], .ok ⟨2, 48000, .f32⟩, some "boom"⟩
      ⟨2, 48000, .f32⟩ []).2.2.1 rfl hpick
      (by intro s hs; cases hs) rfl
  · exact (audio_start_typed_errors (Host.mk (.ok []) none) "" "backend"
      (Device.mk (.ok "X") (.ok []) (.error "backend") none)
      ⟨2, 48000, .f32⟩ []).2.2.2.2 rfl rfl rfl

/-! ## Runtime coordinator (`spawn_runtime` command loop, `core/mod.rs`)

The `Running` struct holds the `AudioOutput` (an open stream or the
`AudioOutput::stopped()` placeholder) and the shared
`Arc<ArrayQueue<i16>>`; `qid` models the `Arc` pointer identity. -/

inductive AudioState
  | active (deviceName : String)
  | stopped
deriving Repr, DecidableEq

/-- `AudioOutput::device_name()`; the stopped placeholder reports
`"(stopped)"`. -/
def AudioState.deviceName : AudioState → String
  | .active nm => nm
  | .stopped => "(stopped)"

structure QueueObj where
  qid : Nat
  q : SampleQueue
deriving Repr, DecidableEq

structure Running where
  audio : AudioState
  queue : QueueObj
deriving Repr, DecidableEq

structure CoreState where
  running : Option Running
  shared : Status
deriving Repr, DecidableEq

/-- Embedding of the `CoreCommand::ChangeOutputDevice` arm: when a run is
active, drop the old stream (placeholder `stopped`), wait for the
callback to quiesce, drain the stale samples from the *same* queue
instance, then start the new device; on failure record the error and try
to reopen the previous device, keeping the run alive either way.  With no
active run the command does nothing. -/
def stepChangeOutputDevice (host : Host) (deviceName : Option String)
    (st : CoreState) : CoreState :=
  match st.running with
  | none => st
  | some r =>
    let oldDevice := r.audio.deviceName
    let sh1 := st.shared.log_line ("Switching audio from " ++ oldDevice)
    let drained : QueueObj := ⟨r.queue.qid, ⟨r.queue.q.cap, []⟩⟩
    match AudioOutput.start host deviceName with
    | .ok newAudio =>
      { running := some ⟨.active newAudio.deviceName, drained⟩
        shared := sh1.log_line ("Audio output switched to: " ++ newAudio.deviceName) }
    | .error e =>
      let sh2 := { sh1 with last_error := some e }
      let sh3 := sh2.log_line ("Failed to switch audio: " ++ e)
      match AudioOutput.start host (some oldDevice) with
      | .ok fallback =>
        { running := some ⟨.active fallback.deviceName, drained⟩
          shared := sh3.log_line "Reverted to previous audio device" }
      | .error _ =>
        { running := some ⟨.stopped, drained⟩
          shared := sh3 }

/-- Embedding of the `CoreCommand::Start` arm: stop any previous run,
clear the last error, allocate a *fresh* 48,000-capacity queue (`freshId`
models the new `Arc` allocation), and open the audio output on the device
named by the command; on failure record the error and stay stopped. -/
def stepStart (host : Host) (outputDevice : Option String) (freshId : Nat)
    (st : CoreState) : CoreState :=
  let st1 : CoreState :=
    match st.running with
    | some _ =>
      { running := none
        shared := { st.shared.log_line "Stopping previous session"
                      with server_running := false } }
    | none => st
  let sh := { st1.shared with last_error := none }
  let queue : QueueObj := ⟨freshId, SampleQueue.new 48000⟩
  match AudioOutput.start host outputDevice with
  | .ok audioOut =>
    { running := some ⟨.active audioOut.deviceName, queue⟩
      shared := { sh.log_line ("Audio output started: " ++ audioOut.deviceName)
                    with server_running := true } }
  | .error e =>
    { running := none
      shared := { sh with last_error := some e }.log_line
        ("Failed to start audio output: " ++ e) }

/-- **C7.**  A device switch while a run is active keeps the very same
queue instance at the same capacity, drains all not-yet-consumed samples
before the new stream starts, and the run stays alive; when opening the
new device fails, the error is recorded in `last_error` and the previous
device is reopened (the stream staying in the stopped placeholder only if
that fallback fails too). -/
theorem device_switch_preserves_bridge (host : Host) (dev : Option String)
    (st : CoreState) (r : Running) (h : st.running = some r) :
    ∃ r2, (stepChangeOutputDevice host dev st).running = some r2 ∧
      r2.queue.qid = r.queue.qid ∧
      r2.queue.q.cap = r.queue.q.cap ∧
      r2.queue.q.data = [] ∧
      (∀ m, AudioOutput.start host dev = .ok m →
        r2.audio = .active m.deviceName) ∧
      (∀ e, AudioOutput.start host dev = .error e →
        (stepChangeOutputDevice host dev st).shared.last_error = some e ∧
        (∀ fb, AudioOutput.start host (some r.audio.deviceName) = .ok fb →
          r2.audio = .active fb.deviceName) ∧
        (∀ e2, AudioOutput.start host (some r.audio.deviceName) = .error e2 →
          r2.audio = .stopped)) := by
  rcases hnew : AudioOutput.start host dev with e | m
  · rcases hfb : AudioOutput.start host (some r.audio.deviceName) with e2 | fb
    · -- the new device fails and the fallback fails too
      refine ⟨⟨.stopped, ⟨r.queue.qid, ⟨r.queue.q.cap, []⟩⟩⟩, ?_, rfl, rfl, rfl,
        ?_, ?_⟩
      · unfold stepChangeOutputDevice
        rw [h]
        simp [hnew, hfb]
      · intro m2 hm2
        simp at hm2
      · intro e3 he3
        injection he3 with hee
        subst hee
        refine ⟨?_, ?_, ?_⟩
        · unfold stepChangeOutputDevice
          rw [h]
          simp [hnew, hfb, Status.log_line]
        · intro fb2 hfb2
          simp at hfb2
        · intro e4 he4
          rfl
    · -- the new device fails, the previous device reopens
      refine ⟨⟨.active fb.deviceName, ⟨r.queue.qid, ⟨r.queue.q.cap, []⟩⟩⟩, ?_,
        rfl, rfl, rfl, ?_, ?_⟩
      · unfold stepChangeOutputDevice
        rw [h]
        simp [hnew, hfb]
      · intro m2 hm2
        simp at hm2
      · intro e3 he3
        injection he3 with hee
        subst hee
        refine ⟨?_, ?_, ?_⟩
        · unfold stepChangeOutputDevice
          rw [h]
          simp [hnew, hfb, Status.log_line]
        · intro fb2 hfb2
          injection hfb2 with hfe
          subst hfe
          rfl
        · intro e4 he4
          simp at he4
  · -- the new device opens
    refine ⟨⟨.active m.deviceName, ⟨r.queue.qid, ⟨r.queue.q.cap, []⟩⟩⟩, ?_,
      rfl, rfl, rfl, ?_, ?_⟩
    · unfold stepChangeOutputDevice
      rw [h]
      simp [hnew]
    · intro m2 hm2
      injection hm2 with hme
      subst hme
      rfl
    · intro e3 he3
      simp at he3

/-- Witness for C7: switching a running state (queue id 3, capacity 5,
two queued samples) to the absent device "X" on a host with no devices
fails both opens, yet keeps the same, drained queue and a live run. -/
theorem device_switch_preserves_bridge_witness :
    (CoreState.mk (some (Running.mk (.active "Speakers") ⟨3, ⟨5, [1, 2]⟩⟩))
        Status.init).running
      = some (Running.mk (.active "Speakers") ⟨3, ⟨5, [1, 2]⟩⟩) ∧
    ∃ r2, (stepChangeOutputDevice (Host.mk (.ok []) none) (some "X")
        (CoreState.mk (some (Running.mk (.active "Speakers") ⟨3, ⟨5, [1, 2]⟩⟩))
          Status.init)).running = some r2 ∧
      r2.queue.qid = 3 ∧
      r2.queue.q.cap = 5 ∧
      r2.queue.q.data = [] ∧
      (∀ m, AudioOutput.start (Host.mk (.ok []) none) (some "X") = .ok m →
        r2.audio = .active m.deviceName) ∧
      (∀ e, AudioOutput.start (Host.mk (.ok []) none) (some "X") = .error e →
        (stepChangeOutputDevice (Host.mk (.ok []) none) (some "X")
          (CoreState.mk (some (Running.mk (.active "Speakers") ⟨3, ⟨5, [1, 2]⟩⟩))
            Status.init)).shared.last_error = some e ∧
        (∀ fb, AudioOutput.start (Host.mk (.ok []) none) (some "Speakers") = .ok fb →
          r2.audio = .active fb.deviceName) ∧
        (∀ e2, AudioOutput.start (Host.mk (.ok []) none) (some "Speakers") = .error e2 →
          r2.audio = .stopped)) :=
  ⟨rfl,
    device_switch_preserves_bridge (Host.mk (.ok []) none) (some "X")
      (CoreState.mk (some (Running.mk (.active "Speakers") ⟨3, ⟨5, [1, 2]⟩⟩))
        Status.init)
      (Running.mk (.active "Speakers") ⟨3, ⟨5, [1, 2]⟩⟩) rfl⟩

/-- A 48 kHz-capable test device named "X". -/
def devX : Device :=
  ⟨.ok "X", .ok [⟨2, 48000, 48000, .f32⟩], .ok ⟨2, 48000, .f32⟩, none⟩

/-- A 48 kHz-capable test device named "Default". -/
def devDefault : Device :=
  ⟨.ok "Default", .ok [⟨2, 48000, 48000, .f32⟩], .ok ⟨2, 48000, .f32⟩, none⟩

/-- A host exposing both test devices, with "Default" as system default. -/
def hostXD : Host := ⟨.ok [devX, devDefault], some devDefault⟩

theorem hostXD_start_default :
    AudioOutput.start hostXD none = .ok ⟨"Default", ⟨2, 48000, .f32⟩⟩ := by
  unfold AudioOutput.start hostXD devDefault pick_output_config
  simp [covers48k, SupportedStreamConfigRange.withSampleRate]

theorem hostXD_start_X :
    AudioOutput.start hostXD (some "X") = .ok ⟨"X", ⟨2, 48000, .f32⟩⟩ := by
  unfold AudioOutput.start hostXD devX devDefault pick_output_config
  simp [nameMatches, covers48k, SupportedStreamConfigRange.withSampleRate]

/-- **C8 counterexample.**  Processing `ChangeOutputDevice{device="X"}`
with no active session leaves the core state entirely unchanged — the
name "X" is *not* remembered — so a subsequent `Start` without an
explicit device opens the system default device "Default", not "X". -/
theorem changeDevice_idle_counterexample :
    stepChangeOutputDevice hostXD (some "X") (CoreState.mk none Status.init)
      = CoreState.mk none Status.init ∧
    (stepStart hostXD none 1
        (stepChangeOutputDevice hostXD (some "X")
          (CoreState.mk none Status.init))).running.map Running.audio
      = some (.active "Default") ∧
    AudioState.active "Default" ≠ AudioState.active "X" := by
  refine ⟨rfl, ?_, by decide⟩
  show (stepStart hostXD none 1 (CoreState.mk none Status.init)).running.map
      Running.audio = some (.active "Default")
  unfold stepStart
  simp [hostXD_start_default]

/-- **C8 (amended).**  When `ChangeOutputDevice{device}` is processed
while no session is active, the command leaves the core runtime state
entirely unchanged; the device name is *not* remembered by the core (the
UI retains the selection), and a subsequent Start opens whatever device
its own command names — the system default when it names none. -/
theorem changeDevice_idle_noop (host : Host) (dev : Option String)
    (st : CoreState) (h : st.running = none) :
    stepChangeOutputDevice host dev st = st ∧
    (∀ dopt fid m, AudioOutput.start host dopt = .ok m →
      (stepStart host dopt fid st).running.map Running.audio
        = some (.active m.deviceName)) := by
  constructor
  · unfold stepChangeOutputDevice
    rw [h]
  · intro dopt fid m hm
    unfold stepStart
    rw [h]
    simp [hm]

/-- Witness for C8: on the two-device host, `ChangeOutputDevice "X"` at
idle is a no-op, and a Start naming "X" opens "X". -/
theorem changeDevice_idle_noop_witness :
    stepChangeOutputDevice hostXD (some "X") (CoreState.mk none Status.init)
      = CoreState.mk none Status.init ∧
    (stepStart hostXD (some "X") 1 (CoreState.mk none Status.init)).running.map
        Running.audio = some (.active "X") := by
  have h := changeDevice_idle_noop hostXD (some "X")
    (CoreState.mk none Status.init) rfl
  exact ⟨h.1, h.2 (some "X") 1 ⟨"X", ⟨2, 48000, .f32⟩⟩ hostXD_start_X⟩

end LanMicReceiver
